import Mathlib

/-!
Verification development for the CuzoNet WhatsApp bot
(`src/whatsapp-bot/bot.js`): a shallow embedding of the bot's pure
text-processing core — the payment-command extractor (`procesarPago`),
the client-upsert field classifier and orchestrator (`registrarCliente`),
the client resolver (`buscarCliente`), and the message dispatcher — and
theorems about it.

Modelling conventions:
* JavaScript strings are Lean `String`s processed as `List Char`.
  `String.toLowerCase` is modelled for ASCII and the Spanish accented
  letters that occur in the bot's keywords and data; JS handles all of
  Unicode, which never matters for the properties proved here.
* JS numbers are modelled as exact rationals `ℚ`.  `parseFloat` is
  modelled exactly (sign, integer/fraction digits, exponent); binary
  floating-point rounding and the `Infinity` literal are outside the
  model and are irrelevant to every statement below.
* `\s` in the bot's regexes is modelled by the four whitespace
  characters that can actually occur in its inputs (the dispatcher
  splits messages on whitespace before the handlers run).
* Fallible JS code (thrown errors) is modelled with `Except`/`Option`.
-/

namespace Cuzo

/-- ASCII digit, as matched by `\d` in JS regexes. -/
def esDigito (c : Char) : Bool := '0' ≤ c && c ≤ '9'

/-- Whitespace, as matched by `\s` on the bot's inputs. -/
def esEspacio (c : Char) : Bool := c = ' ' || c = '\t' || c = '\n' || c = '\r'

/-- JS `toLowerCase` restricted to ASCII plus the Spanish accented
letters used by the bot (`Á É Í Ó Ú Ü Ñ`). -/
def jsToLower (c : Char) : Char :=
  if 'A' ≤ c ∧ c ≤ 'Z' then Char.ofNat (c.toNat + 32)
  else if c = 'Á' then 'á' else if c = 'É' then 'é' else if c = 'Í' then 'í'
  else if c = 'Ó' then 'ó' else if c = 'Ú' then 'ú' else if c = 'Ü' then 'ü'
  else if c = 'Ñ' then 'ñ' else c

/-- JS `toLowerCase` on a whole string. -/
def jsToLowerStr (s : String) : String := String.mk (s.data.map jsToLower)

/-- Diacritic stripping: the effect of `normalize('NFD')` followed by
removing the combining marks U+0300–U+036F, on the (lower-cased)
Spanish letters that occur in the data. -/
def quitaAcento (c : Char) : Char :=
  if c = 'á' then 'a' else if c = 'é' then 'e' else if c = 'í' then 'i'
  else if c = 'ó' then 'o' else if c = 'ú' then 'u' else if c = 'ü' then 'u'
  else if c = 'ñ' then 'n' else c

/-- Trim (JS `String.trim`) on a character list. -/
def trimL (l : List Char) : List Char :=
  ((l.dropWhile esEspacio).reverse.dropWhile esEspacio).reverse

/-- Trim on a string. -/
def trimStr (s : String) : String := String.mk (trimL s.data)

/-- JS `substring(n)` / drop of the first `n` characters. -/
def dropStr (s : String) (n : Nat) : String := String.mk (s.data.drop n)

/-- Split a character list at every occurrence of `sep` (the semantics
of JS `split` with a one-character separator string). -/
def splitOn (sep : Char) : List Char → List (List Char)
  | [] => [[]]
  | c :: t =>
    if c = sep then [] :: splitOn sep t
    else
      match splitOn sep t with
      | [] => [[c]]
      | p :: ps => (c :: p) :: ps

/-- JS `Array.join(sep)`. -/
def joinWith (sep : String) : List String → String
  | [] => ""
  | [x] => x
  | x :: y :: xs => x ++ sep ++ joinWith sep (y :: xs)

/-- The function `normalizarTexto` (bot.js): lower-case, strip diacritics, trim. -/
def normalizarTexto (texto : String) : String :=
  String.mk (trimL ((texto.data.map jsToLower).map quitaAcento))

/-- Does `hay` start with `needle`? -/
def empiezaCon : List Char → List Char → Bool
  | _, [] => true
  | [], _ :: _ => false
  | a :: as, b :: bs => a = b && empiezaCon as bs

/-- Substring containment, the semantics of JS `String.includes`. -/
def contiene : List Char → List Char → Bool
  | [], needle => needle.isEmpty
  | a :: t, needle => empiezaCon (a :: t) needle || contiene t needle

/-- JS `String.replace` with a one-character pattern and empty
replacement: removes the first occurrence only. -/
def removeFirst (b : Char) : List Char → List Char
  | [] => []
  | a :: t => if a = b then t else a :: removeFirst b t

/-- Digit-run value, e.g. `['2','0','0'] ↦ 200`. -/
def digitsNat (l : List Char) : Nat :=
  l.foldl (fun a c => a * 10 + (c.toNat - '0'.toNat)) 0

/-- Digit-run value as a rational. -/
def digitsQ (l : List Char) : ℚ := (digitsNat l : ℚ)

mutual

/-- JS `split(/\s+/)`, main state: accumulating the current piece
(in reverse). -/
def splitWsAux : List Char → List Char → List (List Char)
  | [], cur => [cur.reverse]
  | c :: rest, cur =>
    if esEspacio c then cur.reverse :: splitWsSalto rest
    else splitWsAux rest (c :: cur)

/-- JS `split(/\s+/)`, state after a separator: skipping further
whitespace of the same run. -/
def splitWsSalto : List Char → List (List Char)
  | [] => [[]]
  | c :: rest => if esEspacio c then splitWsSalto rest else splitWsAux rest [c]

end

/-- JS `split(/\s+/)` on a string (`"" ↦ [""]`, runs of whitespace are
single separators, edge separators produce empty pieces). -/
def splitWsStr (s : String) : List String :=
  (splitWsAux s.data []).map String.mk

/-- Optional exponent suffix of `parseFloat` (`e`/`E`, optional sign,
digits); trailing garbage is ignored, as in JS. -/
def applyExp (v : ℚ) (rest : List Char) : ℚ :=
  match rest with
  | [] => v
  | e :: t =>
    if e = 'e' ∨ e = 'E' then
      match t with
      | [] => v
      | s :: u =>
        if s = '+' then
          (if (u.takeWhile esDigito).isEmpty then v
           else v * (10 : ℚ) ^ digitsNat (u.takeWhile esDigito))
        else if s = '-' then
          (if (u.takeWhile esDigito).isEmpty then v
           else v / (10 : ℚ) ^ digitsNat (u.takeWhile esDigito))
        else
          (if (t.takeWhile esDigito).isEmpty then v
           else v * (10 : ℚ) ^ digitsNat (t.takeWhile esDigito))
    else v

/-- Unsigned part of `parseFloat`: digits, optional `.` + digits,
optional exponent; `none` when no digits were found (JS `NaN`). -/
def parseMag (l : List Char) : Option ℚ :=
  let ent := l.takeWhile esDigito
  match l.dropWhile esDigito with
  | [] => if ent.isEmpty then none else some (digitsQ ent)
  | c :: t =>
    if c = '.' then
      let fra := t.takeWhile esDigito
      if ent.isEmpty ∧ fra.isEmpty then none
      else some (applyExp (digitsQ ent + digitsQ fra / (10 : ℚ) ^ fra.length)
                          (t.dropWhile esDigito))
    else if ent.isEmpty then none
    else some (applyExp (digitsQ ent) (c :: t))

/-- JS `parseFloat`: leading whitespace, optional sign, then the
magnitude; `none` is `NaN`. -/
def jsParseFloat (l : List Char) : Option ℚ :=
  match l.dropWhile esEspacio with
  | [] => none
  | c :: t =>
    if c = '+' then parseMag t
    else if c = '-' then (parseMag t).map (fun v => -v)
    else parseMag (c :: t)

/-- Regex `^(\d{1,3}\.){3}\d{1,3}$` — dotted-quad form (four groups of one
to three digits; splitting on `.` and checking each group realises
exactly this anchored regex). -/
def esIP (campo : String) : Bool :=
  let parts := splitOn '.' campo.data
  parts.length == 4 &&
    parts.all (fun p => decide (1 ≤ p.length ∧ p.length ≤ 3) && p.all esDigito)

/-- Regex `/mbps|básico|basico|estandar|estándar|premium|avanzado|mega/i` —
case-insensitive keyword containment. -/
def esPlan (campo : String) : Bool :=
  let l := campo.data.map jsToLower
  contiene l "mbps".data || contiene l "básico".data || contiene l "basico".data ||
  contiene l "estandar".data || contiene l "estándar".data ||
  contiene l "premium".data || contiene l "avanzado".data || contiene l "mega".data

/-- JS `campo.match(/(\d+)\s*mbps/i)`: leftmost digit run followed by
optional whitespace and `mbps` (case-insensitive); returns the digit
group.  Trying each start position with the maximal digit run is
equivalent to the regex's backtracking search. -/
def matchVel : List Char → Option (List Char)
  | [] => none
  | c :: rest =>
    if esDigito c then
      let tras := (((c :: rest).dropWhile esDigito).dropWhile esEspacio).map jsToLower
      if empiezaCon tras "mbps".data then some ((c :: rest).takeWhile esDigito)
      else matchVel rest
    else matchVel rest

/-- JS `campo.replace(/[-\s\+]/g, '')` — remove every hyphen, whitespace
character and plus sign (parentheses and other characters stay). -/
def limpiaTel (l : List Char) : List Char :=
  l.filter (fun c => !(c = '-' || esEspacio c || c = '+'))

/-- Regex `/^\d{8,}$/` applied to the cleaned segment: the whole remainder is
a run of at least eight digits. -/
def esTelefono (campo : String) : Bool :=
  let l := limpiaTel campo.data
  decide (8 ≤ (l.takeWhile esDigito).length) && (l.dropWhile esDigito).isEmpty

/-- Regex `/^\d+(\.\d+)?$/` — pure integer or decimal segment. -/
def esNumerico (campo : String) : Bool :=
  let ent := campo.data.takeWhile esDigito
  match campo.data.dropWhile esDigito with
  | [] => !ent.isEmpty
  | c :: t => c = '.' && !ent.isEmpty && !t.isEmpty && t.all esDigito

/-- JS `parseFloat(campo)` for a segment (total, with junk value 0 on the
unreachable `NaN` case). -/
def numDe (campo : String) : ℚ := (jsParseFloat campo.data).getD 0

/-- Regex `/[a-záéíóúñ]/i` — does the segment contain a letter? -/
def esLetraJS (c : Char) : Bool :=
  ('a' ≤ c && c ≤ 'z') || ('A' ≤ c && c ≤ 'Z') ||
  c = 'á' || c = 'é' || c = 'í' || c = 'ó' || c = 'ú' || c = 'ñ' ||
  c = 'Á' || c = 'É' || c = 'Í' || c = 'Ó' || c = 'Ú' || c = 'Ñ'

/-- Does the segment contain any letter (address rule)? -/
def tieneLetra (campo : String) : Bool := campo.data.any esLetraJS

/-- A registry client record, with the fields the modelled code reads.
`telefono`/`direccion` may be absent in the registry (`null`). -/
structure Cliente where
  id : Nat
  nombre : String
  ip_address : String
  plan : String
  telefono : Option String
  direccion : Option String
  dia_corte : ℚ
  precio_mensual : ℚ
deriving DecidableEq

/-- The `/api/clientes` response body (`data.success`,
`data.clientes`). -/
structure ApiClientes where
  success : Bool
  clientes : Option (List Cliente)
deriving DecidableEq

/-- Outcome of the roster fetch: the axios call threw, or it returned a
response whose body may be missing. -/
inductive RegResp
  | noConexion
  | ok (data : Option ApiClientes)
deriving DecidableEq

/-- JS `x || d` on an optional string (`null` and `""` both fall back
to the default). -/
def jsOr (o : Option String) (d : String) : String :=
  match o with
  | none => d
  | some s => if s = "" then d else s

/-- Mutable classifier state of `registrarCliente` (its local
variables; `precioV` is the JS variable `precio`). -/
structure CState where
  ip : String
  plan : String
  telefono : String
  direccion : String
  diaCorteFinal : ℚ
  precioV : ℚ
  velocidadDown : String
  velocidadUp : String
deriving DecidableEq

/-- Initial classifier state (the declared defaults). -/
def initCState : CState :=
  { ip := "", plan := "Basico 7Mbps", telefono := "", direccion := "",
    diaCorteFinal := 1, precioV := 0, velocidadDown := "7M", velocidadUp := "7M" }

/-- One iteration of the `for (const campo of camposRestantes)` loop:
first matching rule wins (IP, plan, telephone, number, address). -/
def classifyCampo (st : CState) (campo : String) : CState :=
  if esIP campo then { st with ip := campo }
  else if esPlan campo then
    match matchVel campo.data with
    | some ds =>
      { st with plan := campo,
                velocidadDown := String.mk ds ++ "M",
                velocidadUp := String.mk ds ++ "M" }
    | none => { st with plan := campo }
  else if esTelefono campo then { st with telefono := campo }
  else if esNumerico campo then
    let num := numDe campo
    if 1 ≤ num ∧ num ≤ 28 ∧ st.diaCorteFinal = 1 ∧ st.precioV = 0 then
      if 50 ≤ num then { st with precioV := num }
      else { st with diaCorteFinal := num }
    else if 50 ≤ num then { st with precioV := num }
    else if 1 ≤ num ∧ num ≤ 28 ∧ st.diaCorteFinal = 1 then
      { st with diaCorteFinal := num }
    else st
  else if tieneLetra campo then
    if st.direccion ≠ "" then { st with direccion := st.direccion ++ ", " ++ campo }
    else { st with direccion := campo }
  else st

/-- JS `args.join(' ').split('/')`, each piece trimmed, empty pieces
dropped. -/
def camposDe (args : List String) : List String :=
  ((splitOn '/' (joinWith " " args).data).map (fun l => String.mk (trimL l))).filter
    (fun c => 0 < c.length)

/-- The parsing/validation part of `registrarCliente`: at least two
segments, segment 0 is the name, the rest are classified; requires a
non-empty name (dead check) and a non-empty IP. -/
def registrarParse (args : List String) : Option (String × CState) :=
  let campos := camposDe args
  if campos.length < 2 then none
  else
    let nombre := campos.headD ""
    let st := campos.tail.foldl classifyCampo initCState
    if nombre = "" then none
    else if st.ip = "" then none
    else some (nombre, st)

/-- Payload of the create call (`POST /api/cliente`). -/
structure DatosCrear where
  nombre : String
  ip_address : String
  plan : String
  telefono : String
  direccion : String
  dia_corte : ℚ
  precio_mensual : ℚ
  velocidad_download : String
  velocidad_upload : String
deriving DecidableEq

/-- Payload of the update call (`PUT /api/cliente/:id`); `none` means
the field is not sent. -/
structure DatosActualizar where
  nombre : String
  telefono : Option String
  direccion : Option String
  plan : String
  velocidad_download : String
  velocidad_upload : String
  precio_mensual : Option ℚ
  dia_corte : ℚ
deriving DecidableEq

/-- Build the update payload: name, plan, speeds and billing day are
always sent; telephone/address only when non-empty; price only when
positive. -/
def mkDatosActualizar (nombre : String) (st : CState) : DatosActualizar :=
  { nombre := nombre,
    telefono := if st.telefono = "" then none else some st.telefono,
    direccion := if st.direccion = "" then none else some st.direccion,
    plan := st.plan,
    velocidad_download := st.velocidadDown,
    velocidad_upload := st.velocidadUp,
    precio_mensual := if 0 < st.precioV then some st.precioV else none,
    dia_corte := st.diaCorteFinal }

/-- Build the create payload: every classified field, defaults
included. -/
def mkDatosCrear (nombre : String) (st : CState) : DatosCrear :=
  { nombre := nombre, ip_address := st.ip, plan := st.plan,
    telefono := st.telefono, direccion := st.direccion,
    dia_corte := st.diaCorteFinal, precio_mensual := st.precioV,
    velocidad_download := st.velocidadDown, velocidad_upload := st.velocidadUp }

/-- The existing-client lookup of `registrarCliente`: any fetch
failure, missing body, unsuccessful response or missing roster is
swallowed (logged only) and leaves `clienteExistente` null. -/
def clienteExistenteDe (resp : RegResp) (ip : String) : Option Cliente :=
  match resp with
  | .noConexion => none
  | .ok none => none
  | .ok (some d) =>
    if d.success then
      match d.clientes with
      | some cs => cs.find? (fun c => c.ip_address == ip)
      | none => none
    else none

/-- The registry call `registrarCliente` decides on. -/
inductive Accion
  | crear (d : DatosCrear)
  | actualizar (id : Nat) (d : DatosActualizar)
deriving DecidableEq

/-- Create-vs-update decision: update when the exact-IP lookup found a
record, create otherwise. -/
def registrarAccion (resp : RegResp) (nombre : String) (st : CState) : Accion :=
  match clienteExistenteDe resp st.ip with
  | some c => .actualizar c.id (mkDatosActualizar nombre st)
  | none => .crear (mkDatosCrear nombre st)

/-- The `cambios` list built after a successful update (the exact
template strings pushed by the code). -/
def computeCambios (prev : Cliente) (nombre tel dir plan : String)
    (precioN dia : ℚ) : List String :=
  (if nombre ≠ prev.nombre then
    ["👤 Nombre: " ++ prev.nombre ++ " → *" ++ nombre ++ "*"] else []) ++
  (if tel ≠ "" ∧ tel ≠ jsOr prev.telefono "" then
    ["📞 Teléfono: " ++ jsOr prev.telefono "N/A" ++ " → *" ++ tel ++ "*"] else []) ++
  (if dir ≠ "" ∧ dir ≠ jsOr prev.direccion "" then
    ["📍 Dirección: " ++ jsOr prev.direccion "N/A" ++ " → *" ++ dir ++ "*"] else []) ++
  (if plan ≠ "Basico 7Mbps" ∧ plan ≠ prev.plan then
    ["📡 Plan: " ++ prev.plan ++ " → *" ++ plan ++ "*"] else []) ++
  (if 0 < precioN ∧ precioN ≠ prev.precio_mensual then
    ["💰 Precio: Q" ++ toString prev.precio_mensual ++ " → *Q" ++ toString precioN ++ "*"]
   else []) ++
  (if dia ≠ prev.dia_corte then
    ["✂️ Día corte: " ++ toString prev.dia_corte ++ " → *" ++ toString dia ++ "*"] else [])

/-- The change-report text: the joined list, or the fixed no-changes
message. -/
def cambiosTexto (prev : Cliente) (nombre tel dir plan : String)
    (precioN dia : ℚ) : String :=
  let cs := computeCambios prev nombre tel dir plan precioN dia
  if 0 < cs.length then joinWith "\n" cs else "_Sin cambios detectados_"

/-- What `buscarCliente` returns to its caller when it does not throw:
one record, several records (the multi-match lists always have length
at least two), or null. -/
inductive BuscarRes
  | uno (c : Cliente)
  | varios (cs : List Cliente)
  | ninguno
deriving DecidableEq

/-- The errors `buscarCliente` can throw: `NO_CONEXION`, `API_ERROR`,
`SIN_CLIENTES`, and the TypeError raised by reading `.length` of an
undefined roster (which escapes to the caller's generic handler). -/
inductive BuscarErr
  | noConexion
  | apiError
  | sinClientes
  | excepcionInterna
deriving DecidableEq

/-- Placeholder record (JS out-of-range indexing is never reached on
the guarded paths that use this). -/
def clienteVacio : Cliente := ⟨0, "", "", "", none, none, 0, 0⟩

/-- The matching part of `buscarCliente`, given the fetched roster:
exact-IP lookup for dotted-quad identifiers; otherwise exact normalized
name, then bidirectional substring, then per-word containment. -/
def buscarCore (clientes : List Cliente) (identificador : String) : BuscarRes :=
  if esIP identificador then
    match clientes.find? (fun c => c.ip_address == identificador) with
    | some c => .uno c
    | none => .ninguno
  else
    let busqueda := normalizarTexto identificador
    match clientes.find? (fun c => normalizarTexto c.nombre == busqueda) with
    | some c => .uno c
    | none =>
      let coincidencias := clientes.filter (fun c =>
        contiene (normalizarTexto c.nombre).data busqueda.data ||
        contiene busqueda.data (normalizarTexto c.nombre).data)
      if coincidencias.length = 0 then
        let palabras := splitWsStr busqueda
        let porPalabras := clientes.filter (fun c =>
          palabras.all (fun p => contiene (normalizarTexto c.nombre).data p.data))
        if porPalabras.length = 1 then .uno (porPalabras.headD clienteVacio)
        else if 1 < porPalabras.length then .varios porPalabras
        else .ninguno
      else if coincidencias.length = 1 then .uno (coincidencias.headD clienteVacio)
      else .varios coincidencias

/-- The function `buscarCliente` with the fetch outcome made explicit: throws
`NO_CONEXION` when the request failed, `API_ERROR` when the body is
missing or not successful, the internal TypeError when the roster field
is absent, `SIN_CLIENTES` when the roster is empty, and otherwise
resolves against the roster. -/
def buscarCliente (resp : RegResp) (identificador : String) :
    Except BuscarErr BuscarRes :=
  match resp with
  | .noConexion => .error .noConexion
  | .ok none => .error .apiError
  | .ok (some d) =>
    if !d.success then .error .apiError
    else
      match d.clientes with
      | none => .error .excepcionInterna
      | some cs =>
        if cs.length = 0 then .error .sinClientes
        else .ok (buscarCore cs identificador)

/-- JS `args[i].toLowerCase().startsWith('ref:')`. -/
def isRefTok (tok : String) : Bool :=
  match tok.data with
  | c0 :: c1 :: c2 :: c3 :: _ =>
    jsToLower c0 = 'r' && jsToLower c1 = 'e' && jsToLower c2 = 'f' && jsToLower c3 = ':'
  | _ => false

/-- JS `CONFIG.METODOS_PAGO.includes(args[i].toLowerCase())`. -/
def esMetodo (tok : String) : Bool :=
  ["efectivo", "transferencia", "deposito", "tarjeta"].contains (jsToLowerStr tok)

/-- JS `tok.replace('Q','').replace('q','')` (first occurrence each), as
done before the amount parse. -/
def removeQq (l : List Char) : List Char := removeFirst 'q' (removeFirst 'Q' l)

/-- The amount test of the scan: strip one `Q`/`q`, `parseFloat`, keep
strictly positive values. -/
def montoValido (tok : String) : Option ℚ :=
  match jsParseFloat (removeQq tok.data) with
  | some n => if 0 < n then some n else none
  | none => none

/-- The backward scan of `procesarPago`, from index `i` down to 1:
reference tokens and payment-method tokens are captured and the scan
continues; the first valid amount stops it (index 0 is never
inspected).  Returns the amount with its index, the method and the
reference accumulators. -/
def scanPago (args : List String) : Nat → String → String →
    Option (ℚ × Nat) × String × String
  | 0, met, ref => (none, met, ref)
  | i + 1, met, ref =>
    let tok := args.getD (i + 1) ""
    if isRefTok tok then scanPago args i met (dropStr tok 4)
    else if esMetodo tok then scanPago args i (jsToLowerStr tok) ref
    else
      match montoValido tok with
      | some n => (some (n, i + 1), met, ref)
      | none => scanPago args i met ref

/-- A parsed payment command. -/
structure PagoIntent where
  identificador : String
  monto : ℚ
  metodoPago : String
  referencia : String
deriving DecidableEq

/-- The argument-parsing part of `procesarPago`: at least two tokens,
backward scan for amount/method/reference, identifier joined from the
tokens before the amount, which must be non-empty. -/
def procesarPagoParse (args : List String) : Option PagoIntent :=
  if args.length < 2 then none
  else
    match scanPago args (args.length - 1) "efectivo" "" with
    | (some (monto, idx), met, ref) =>
      if idx < 1 then none
      else
        let identificador := joinWith " " (args.take idx)
        if identificador = "" then none
        else some { identificador := identificador, monto := monto,
                    metodoPago := met, referencia := ref }
    | (none, _, _) => none

/-- Static dispatcher configuration (`CONFIG.GRUPO_ID`,
`CONFIG.PREFIJO`). -/
structure BotConfig where
  grupoId : String
  prefijo : String
deriving DecidableEq

/-- An inbound chat message (`message.from`, `message.body`). -/
structure Mensaje where
  remitente : String
  body : String
deriving DecidableEq

/-- The fixed unknown-command reply. -/
def respuestaNoReconocido : String :=
  "❓ Comando no reconocido. Escribe *!ayuda* para ver los comandos disponibles."

/-- The fixed reply of the dispatcher's catch block. -/
def respuestaErrorInterno : String := "❌ Error interno del bot. Intenta de nuevo."

/-- The verb the dispatcher extracts from a message
(`texto.substring(1).trim().split(/\s+/)[0]?.toLowerCase()`). -/
def comandoDe (msg : Mensaje) : String :=
  jsToLowerStr ((splitWsStr (trimStr (dropStr (trimStr msg.body) 1))).headD "")

/-- The `message_create` handler.  Handlers are modelled as functions
from the argument tokens to either their single reply or a thrown
error; the dispatcher ignores out-of-scope and non-command messages,
and its try/catch turns a thrown error into the fixed error reply.
Returns the list of replies sent. -/
def dispatch (cfg : BotConfig)
    (hPago hCliente hConsulta hAyuda : List String → Except Unit String)
    (msg : Mensaje) : List String :=
  if cfg.grupoId ≠ "" ∧ msg.remitente ≠ cfg.grupoId then []
  else
    let texto := trimStr msg.body
    if ¬ empiezaCon texto.data cfg.prefijo.data then []
    else
      let partes := splitWsStr (trimStr (dropStr texto 1))
      let comando := jsToLowerStr (partes.headD "")
      let resultado :=
        if comando = "pago" then hPago partes.tail
        else if comando = "cliente" then hCliente partes.tail
        else if comando = "consulta" then hConsulta partes.tail
        else if comando = "ayuda" ∨ comando = "help" then hAyuda partes.tail
        else Except.ok respuestaNoReconocido
      match resultado with
      | .ok r => [r]
      | .error _ => [respuestaErrorInterno]

/-! ## Helper lemmas -/

/-- A classifier step either leaves `ip` unchanged or sets it to a
segment that passes the dotted-quad test. -/
lemma classify_ip_inv (st : CState) (campo : String) :
    (classifyCampo st campo).ip = st.ip ∨
    ((classifyCampo st campo).ip = campo ∧ esIP campo = true) := by
  by_cases h1 : esIP campo = true
  · right; exact ⟨by simp [classifyCampo, h1], h1⟩
  · left
    unfold classifyCampo
    rcases hmv : matchVel campo.data with _ | ds <;>
      split_ifs <;> simp_all <;> split_ifs <;> simp_all

/-- Along the classifier fold, `ip` is empty or dotted-quad. -/
lemma foldl_ip_inv (campos : List String) (st : CState)
    (h : st.ip = "" ∨ esIP st.ip = true) :
    (campos.foldl classifyCampo st).ip = "" ∨
    esIP (campos.foldl classifyCampo st).ip = true := by
  induction campos generalizing st with
  | nil => exact h
  | cons c t ih =>
    simp only [List.foldl_cons]
    apply ih
    rcases classify_ip_inv st c with hsame | ⟨hset, hip⟩
    · rw [hsame]; exact h
    · rw [hset]; exact Or.inr hip

/-- An accepted upsert command has a dotted-quad `ip`, and its state is
the fold of the classifier over the tail segments. -/
lemma registrarParse_inv (args : List String) (nombre : String) (st : CState)
    (hparse : registrarParse args = some (nombre, st)) :
    st = (camposDe args).tail.foldl classifyCampo initCState ∧
    nombre = (camposDe args).headD "" ∧ esIP st.ip = true := by
  unfold registrarParse at hparse
  simp only [] at hparse
  split at hparse
  · exact absurd hparse (by simp)
  · split at hparse
    · exact absurd hparse (by simp)
    · split at hparse
      · exact absurd hparse (by simp)
      · rename_i hipne
        rw [Option.some.injEq, Prod.mk.injEq] at hparse
        obtain ⟨hn, hst⟩ := hparse
        subst hst
        refine ⟨rfl, hn.symm, ?_⟩
        rcases foldl_ip_inv (camposDe args).tail initCState (Or.inl rfl) with h | h
        · exact absurd h hipne
        · exact h

/-! ## Claim theorems -/

/-- C5.  Resolver exact-name precedence: whenever the roster's
first exact normalized-name match for a non-dotted-quad query is `c`,
the resolver returns `uno c`, regardless of any other records that
would match by substring or per-word containment. -/
theorem resolver_nombre_exacto_precede
    (cs : List Cliente) (ident : String) (c : Cliente)
    (hip : esIP ident = false)
    (hfind : cs.find? (fun x => normalizarTexto x.nombre == normalizarTexto ident)
      = some c) :
    buscarCliente (.ok (some ⟨true, some cs⟩)) ident = .ok (.uno c) := by
  have hne : cs ≠ [] := by
    intro h; rw [h] at hfind; simp at hfind
  have hlen : ¬ cs.length = 0 := by simpa [List.length_eq_zero] using hne
  simp [buscarCliente, hlen, buscarCore, hip, hfind]

/-- C5 witness: with a roster holding an exact match (record 1) and a
looser substring match (record 2), the accented, mixed-case query
resolves to the exact match. -/
theorem resolver_nombre_exacto_precede_witness :
    buscarCliente
      (.ok (some ⟨true, some
        [⟨1, "José Pérez", "1.1.1.1", "p", none, none, 1, 0⟩,
         ⟨2, "Jose Perez Lopez", "1.1.1.2", "p", none, none, 1, 0⟩]⟩))
      "JOSE pérez"
      = .ok (.uno ⟨1, "José Pérez", "1.1.1.1", "p", none, none, 1, 0⟩) :=
  resolver_nombre_exacto_precede _ _ _ (by decide) (by decide)

/-- C6.  Round-trip: an upsert command accepted by the classifier has a
dotted-quad `ip`, and resolving that `ip` against a roster holding
exactly one record with that address returns `uno` of that record. -/
theorem upsert_resolver_roundtrip
    (args : List String) (nombre : String) (st : CState) (c : Cliente)
    (hparse : registrarParse args = some (nombre, st))
    (hc : c.ip_address = st.ip) :
    esIP st.ip = true ∧
    buscarCliente (.ok (some ⟨true, some [c]⟩)) st.ip = .ok (.uno c) := by
  obtain ⟨-, -, hip⟩ := registrarParse_inv args nombre st hparse
  refine ⟨hip, ?_⟩
  simp [buscarCliente, buscarCore, hip, List.find?, hc]

/-- C6 witness: the minimal upsert `Juan Perez / 172.16.1.50` round-trips
through the resolver. -/
theorem upsert_resolver_roundtrip_witness :
    esIP "172.16.1.50" = true ∧
    buscarCliente
      (.ok (some ⟨true, some [⟨7, "Juan Perez", "172.16.1.50", "Basico 7Mbps",
        none, none, 1, 0⟩]⟩))
      "172.16.1.50" = .ok (.uno ⟨7, "Juan Perez", "172.16.1.50", "Basico 7Mbps",
        none, none, 1, 0⟩) := by
  have h := upsert_resolver_roundtrip ["Juan", "Perez", "/", "172.16.1.50"]
    "Juan Perez" { initCState with ip := "172.16.1.50" }
    ⟨7, "Juan Perez", "172.16.1.50", "Basico 7Mbps", none, none, 1, 0⟩
    (by decide) (by decide)
  exact h

/-- C7.  Registry-access failures are reported distinctly and are never
`ninguno`: an unreachable registry throws `NO_CONEXION`, a missing or
unsuccessful body throws `API_ERROR`, an empty roster throws
`SIN_CLIENTES`. -/
theorem resolver_fallos_no_son_notfound (ident : String) (cs : Option (List Cliente)) :
    buscarCliente .noConexion ident = .error .noConexion ∧
    buscarCliente (.ok none) ident = .error .apiError ∧
    buscarCliente (.ok (some ⟨false, cs⟩)) ident = .error .apiError ∧
    buscarCliente (.ok (some ⟨true, some []⟩)) ident = .error .sinClientes :=
  ⟨rfl, rfl, rfl, rfl⟩

/-- C7 witness: the three failure classes at a concrete identifier and
roster. -/
theorem resolver_fallos_no_son_notfound_witness :
    buscarCliente .noConexion "Juan" = .error .noConexion ∧
    buscarCliente (.ok (some ⟨false, some [clienteVacio]⟩)) "Juan" = .error .apiError ∧
    buscarCliente (.ok (some ⟨true, some []⟩)) "Juan" = .error .sinClientes :=
  ⟨(resolver_fallos_no_son_notfound "Juan" (some [clienteVacio])).1,
   (resolver_fallos_no_son_notfound "Juan" (some [clienteVacio])).2.2.1,
   (resolver_fallos_no_son_notfound "Juan" (some [clienteVacio])).2.2.2⟩

/-- C9.  If the pre-upsert roster fetch fails (request error, missing
body, or unsuccessful response), the error is swallowed and the flow
takes the create path — even when the failed response's roster contains
a record with the submitted IP. -/
theorem upsert_lookup_fallo_crea (nombre : String) (st : CState)
    (d : ApiClientes) (c : Cliente) :
    registrarAccion .noConexion nombre st = .crear (mkDatosCrear nombre st) ∧
    registrarAccion (.ok none) nombre st = .crear (mkDatosCrear nombre st) ∧
    (d.success = false →
      registrarAccion (.ok (some d)) nombre st = .crear (mkDatosCrear nombre st)) ∧
    (c.ip_address = st.ip →
      registrarAccion (.ok (some ⟨false, some [c]⟩)) nombre st
        = .crear (mkDatosCrear nombre st)) := by
  refine ⟨rfl, rfl, fun h => ?_, fun _ => rfl⟩
  simp [registrarAccion, clienteExistenteDe, h]

/-- C9 witness: with the registry unreachable, and with an unsuccessful
response whose roster does contain the submitted IP, a create is issued
for `10.0.0.9`. -/
theorem upsert_lookup_fallo_crea_witness :
    registrarAccion .noConexion "Ana" { initCState with ip := "10.0.0.9" }
      = .crear (mkDatosCrear "Ana" { initCState with ip := "10.0.0.9" }) ∧
    registrarAccion
      (.ok (some ⟨false, some [⟨3, "Ana", "10.0.0.9", "p", none, none, 1, 0⟩]⟩))
      "Ana" { initCState with ip := "10.0.0.9" }
      = .crear (mkDatosCrear "Ana" { initCState with ip := "10.0.0.9" }) :=
  ⟨(upsert_lookup_fallo_crea "Ana" { initCState with ip := "10.0.0.9" }
      ⟨false, none⟩ clienteVacio).1,
   (upsert_lookup_fallo_crea "Ana" { initCState with ip := "10.0.0.9" }
      ⟨false, none⟩ ⟨3, "Ana", "10.0.0.9", "p", none, none, 1, 0⟩).2.2.2 (by decide)⟩

/-- C10.  A minimal update (only name and IP submitted) sends the
classifier defaults for plan, speeds and billing day, and omits
telephone, address and price; in general those three are sent exactly
when classified non-empty / positive. -/
theorem update_minimo_envia_defaults :
    (∀ (args : List String) (nombre seg : String) (st : CState)
       (resp : RegResp) (c : Cliente),
      registrarParse args = some (nombre, st) →
      (camposDe args).tail = [seg] →
      clienteExistenteDe resp st.ip = some c →
      registrarAccion resp nombre st = .actualizar c.id
        { nombre := nombre, telefono := none, direccion := none,
          plan := "Basico 7Mbps", velocidad_download := "7M",
          velocidad_upload := "7M", precio_mensual := none, dia_corte := 1 }) ∧
    (∀ (nombre : String) (st : CState),
      ((mkDatosActualizar nombre st).telefono ≠ none ↔ st.telefono ≠ "") ∧
      ((mkDatosActualizar nombre st).direccion ≠ none ↔ st.direccion ≠ "") ∧
      ((mkDatosActualizar nombre st).precio_mensual ≠ none ↔ 0 < st.precioV) ∧
      (mkDatosActualizar nombre st).plan = st.plan ∧
      (mkDatosActualizar nombre st).velocidad_download = st.velocidadDown ∧
      (mkDatosActualizar nombre st).velocidad_upload = st.velocidadUp ∧
      (mkDatosActualizar nombre st).dia_corte = st.diaCorteFinal) := by
  constructor
  · intro args nombre seg st resp c hparse htail hexist
    obtain ⟨hst, -, hip⟩ := registrarParse_inv args nombre st hparse
    rw [htail] at hst
    simp only [List.foldl_cons, List.foldl_nil] at hst
    have hsegip : esIP seg = true := by
      rcases classify_ip_inv initCState seg with h | ⟨-, h⟩
      · have hvac : st.ip = "" := by rw [hst, h]; rfl
        rw [hvac] at hip
        exact absurd hip (by decide)
      · exact h
    have hstval : st = { initCState with ip := seg } := by
      rw [hst]; simp [classifyCampo, hsegip]
    subst hstval
    simp [registrarAccion, hexist, mkDatosActualizar, initCState]
  · intro nombre st
    refine ⟨?_, ?_, ?_, rfl, rfl, rfl, rfl⟩ <;>
      · simp only [mkDatosActualizar]
        split_ifs <;> simp_all

/-- C10 witness: the command `Ana / 10.0.0.2` against an existing
client with a different plan, speeds, billing day and price issues an
update carrying the defaults and omitting price/telephone/address. -/
theorem update_minimo_envia_defaults_witness :
    registrarAccion
      (.ok (some ⟨true, some [⟨5, "Ana", "10.0.0.2", "Premium 20Mbps",
        some "55551234", some "Centro", 15, 300⟩]⟩))
      "Ana" { initCState with ip := "10.0.0.2" }
      = .actualizar 5
        { nombre := "Ana", telefono := none, direccion := none,
          plan := "Basico 7Mbps", velocidad_download := "7M",
          velocidad_upload := "7M", precio_mensual := none, dia_corte := 1 } :=
  update_minimo_envia_defaults.1 ["Ana", "/", "10.0.0.2"] "Ana" "10.0.0.2"
    { initCState with ip := "10.0.0.2" }
    (.ok (some ⟨true, some [⟨5, "Ana", "10.0.0.2", "Premium 20Mbps",
      some "55551234", some "Centro", 15, 300⟩]⟩))
    ⟨5, "Ana", "10.0.0.2", "Premium 20Mbps", some "55551234", some "Centro", 15, 300⟩
    (by decide) (by decide) (by decide)

/-- C2 counterexample.  The claim "the change report lists exactly those
resent fields whose new value differs" fails: updating a client whose
stored plan is `Premium 10Mbps` with the minimal command (plan resent
as the default `Basico 7Mbps`, which differs) produces an empty change
list and the report "Sin cambios detectados". -/
theorem reporte_cambios_spec_refutada :
    (registrarParse ["Juan", "/", "1.2.3.4"]).map
        (fun r => (mkDatosActualizar r.1 r.2).plan) = some "Basico 7Mbps" ∧
    computeCambios ⟨1, "Juan", "1.2.3.4", "Premium 10Mbps", none, none, 1, 0⟩
      "Juan" "" "" "Basico 7Mbps" 0 1 = [] ∧
    cambiosTexto ⟨1, "Juan", "1.2.3.4", "Premium 10Mbps", none, none, 1, 0⟩
      "Juan" "" "" "Basico 7Mbps" 0 1 = "_Sin cambios detectados_" ∧
    "Basico 7Mbps" ≠ "Premium 10Mbps" := by
  refine ⟨by decide, by decide, by decide, by decide⟩

/-- C2, amended.  The change report is empty — and then reads "Sin
cambios detectados" — exactly when: the name is unchanged; telephone
and address are unsent or unchanged; the plan equals the stored plan
**or the default `Basico 7Mbps`** (a resent default plan is never
reported, and speeds are never compared); the price is unsent or
unchanged; and the billing day is unchanged.  In particular
re-submitting fields identical to the stored record reports no
changes. -/
theorem reporte_cambios_caracterizacion
    (prev : Cliente) (nombre tel dir plan : String) (precioN dia : ℚ) :
    (computeCambios prev nombre tel dir plan precioN dia = [] ↔
      (nombre = prev.nombre ∧
       (tel = "" ∨ tel = jsOr prev.telefono "") ∧
       (dir = "" ∨ dir = jsOr prev.direccion "") ∧
       (plan = "Basico 7Mbps" ∨ plan = prev.plan) ∧
       (precioN ≤ 0 ∨ precioN = prev.precio_mensual) ∧
       dia = prev.dia_corte)) ∧
    (computeCambios prev nombre tel dir plan precioN dia = [] →
      cambiosTexto prev nombre tel dir plan precioN dia
        = "_Sin cambios detectados_") := by
  have key : ∀ (P : Prop) [Decidable P] (s : String),
      ((if P then [s] else []) = ([] : List String)) ↔ ¬P := by
    intro P _ s
    split_ifs with h <;> simp [h]
  constructor
  · unfold computeCambios
    rw [List.append_eq_nil, List.append_eq_nil, List.append_eq_nil,
        List.append_eq_nil, List.append_eq_nil, key, key, key, key, key, key]
    simp only [not_and_or, not_not, not_lt, ne_eq, and_assoc]
    try tauto
  · intro h
    simp [cambiosTexto, h]

/-- C2 witness: re-submitting fields identical to the stored record
(name, plan, day; telephone/address/price unsent) yields an empty
change list. -/
theorem reporte_cambios_caracterizacion_witness :
    computeCambios ⟨1, "Juan", "1.2.3.4", "Turbo 9Mbps", none, none, 9, 150⟩
      "Juan" "" "" "Turbo 9Mbps" 150 9 = [] :=
  (reporte_cambios_caracterizacion
    ⟨1, "Juan", "1.2.3.4", "Turbo 9Mbps", none, none, 9, 150⟩
    "Juan" "" "" "Turbo 9Mbps" 150 9).1.mpr (by decide)

/-- Modelled from the spec's words for claim C3 only (to compare with
the implementation): remove spaces, hyphens, parentheses and one
leading plus sign, then require a run of at least eight digits. -/
def telefonoSegunSpec (campo : String) : Bool :=
  let sinSimbolos := campo.data.filter
    (fun c => !(esEspacio c || c = '-' || c = '(' || c = ')'))
  let sinMas := match sinSimbolos with
    | '+' :: t => t
    | l => l
  decide (8 ≤ sinMas.length) && sinMas.all esDigito

/-- C3 counterexample.  The spec's telephone rule and the code
disagree: `(12345678)` is a telephone per the spec (parentheses
removed), but the code removes only hyphens, whitespace and plus signs,
so the segment fails every rule and is dropped entirely. -/
theorem regla_telefono_spec_refutada :
    telefonoSegunSpec "(12345678)" = true ∧
    esTelefono "(12345678)" = false ∧
    classifyCampo initCState "(12345678)" = initCState := by
  refine ⟨by decide, by decide, by decide⟩

/-- C3, amended.  A segment matching neither the IP nor the plan rule
is classified as telephone (and stored verbatim) iff after removing
every space, hyphen and plus sign — anywhere, parentheses kept — the
remainder is a run of at least eight digits. -/
theorem regla_telefono_caracterizacion (st : CState) (campo : String)
    (h1 : esIP campo = false) (h2 : esPlan campo = false) :
    ((classifyCampo st campo).telefono
      = if esTelefono campo then campo else st.telefono) ∧
    (esTelefono campo = true ↔
      8 ≤ (limpiaTel campo.data).length ∧
      (limpiaTel campo.data).all esDigito = true) := by
  constructor
  · unfold classifyCampo
    rcases hmv : matchVel campo.data with _ | ds <;>
      split_ifs <;> simp_all <;> split_ifs <;> simp_all
  · unfold esTelefono
    simp only [Bool.and_eq_true, decide_eq_true_eq, List.isEmpty_iff,
      List.dropWhile_eq_nil_iff, List.all_eq_true]
    constructor
    · rintro ⟨hlen, hall⟩
      have heq : (limpiaTel campo.data).takeWhile esDigito = limpiaTel campo.data :=
        List.takeWhile_eq_self_iff.mpr hall
      rw [heq] at hlen
      exact ⟨hlen, fun x hx => hall x hx⟩
    · rintro ⟨hlen, hall⟩
      have heq : (limpiaTel campo.data).takeWhile esDigito = limpiaTel campo.data :=
        List.takeWhile_eq_self_iff.mpr hall
      rw [heq]
      exact ⟨hlen, hall⟩

/-- C3 witness: `3247-2792` (eight digits plus a hyphen) is classified
as telephone and stored verbatim. -/
theorem regla_telefono_caracterizacion_witness :
    (classifyCampo initCState "3247-2792").telefono = "3247-2792" := by
  have h := (regla_telefono_caracterizacion initCState "3247-2792"
    (by decide) (by decide)).1
  rw [h]
  decide

/-- C1 counterexample.  The claim predicts that for segments
`60` then `10`, `dia_corte` stays at its default `1`; the code instead
assigns `10` to the billing day through the third numeric branch
(which does not test `precio`). -/
theorem clasificador_numerico_spec_refutada :
    (registrarParse ["D", "/", "9.9.9.9", "/", "60", "/", "10"]).map
      (fun r => (r.2.diaCorteFinal, r.2.precioV)) = some (10, 60) ∧
    ((10 : ℚ), (60 : ℚ)) ≠ ((1 : ℚ), (60 : ℚ)) := by
  refine ⟨by decide, by decide⟩

/-- C1, amended.  Numeric disambiguation as implemented: `10` then `60`
gives `dia_corte = 10, precio = 60`, and `60` then `10` gives the same
result (not `dia_corte = 1`); in general, for a segment reaching the
numeric rule, a value of at least 50 is assigned to `precio`
unconditionally, a value in `[1, 28]` is assigned to `diaCorte` iff
`diaCorte` still equals its default `1` — regardless of `precio` —
and any other value is silently dropped. -/
theorem clasificador_numerico_politica :
    ((registrarParse ["D", "/", "9.9.9.9", "/", "10", "/", "60"]).map
        (fun r => (r.2.diaCorteFinal, r.2.precioV)) = some (10, 60)) ∧
    ((registrarParse ["D", "/", "9.9.9.9", "/", "60", "/", "10"]).map
        (fun r => (r.2.diaCorteFinal, r.2.precioV)) = some (10, 60)) ∧
    (∀ (st : CState) (campo : String),
      esIP campo = false → esPlan campo = false → esTelefono campo = false →
      esNumerico campo = true →
      classifyCampo st campo =
        if 50 ≤ numDe campo then { st with precioV := numDe campo }
        else if 1 ≤ numDe campo ∧ numDe campo ≤ 28 ∧ st.diaCorteFinal = 1 then
          { st with diaCorteFinal := numDe campo }
        else st) := by
  refine ⟨by decide, by decide, ?_⟩
  intro st campo h1 h2 h3 h4
  simp only [classifyCampo, h1, h2, h3, h4, Bool.false_eq_true, if_false, if_true]
  split_ifs <;> first | rfl | simp_all

/-- C1 witness: the general numeric rule applied to the segment `15`
in the initial state assigns the billing day. -/
theorem clasificador_numerico_politica_witness :
    classifyCampo initCState "15" = { initCState with diaCorteFinal := 15 } := by
  have h := clasificador_numerico_politica.2.2 initCState "15"
    (by decide) (by decide) (by decide) (by decide)
  rw [h]
  decide

/-- C8.  Dispatcher boundary: a message is ignored (no reply) when a
channel scope is configured and does not match, or when the trimmed
text does not start with the configured command marker; otherwise exactly one
reply is sent, and when the selected handler throws, that reply is the
fixed internal-error text rather than a propagated exception. -/
theorem dispatcher_frontera (cfg : BotConfig)
    (hP hC hQ hA : List String → Except Unit String) (msg : Mensaje) :
    (cfg.grupoId ≠ "" → msg.remitente ≠ cfg.grupoId →
      dispatch cfg hP hC hQ hA msg = []) ∧
    ((cfg.grupoId = "" ∨ msg.remitente = cfg.grupoId) →
      empiezaCon (trimStr msg.body).data cfg.prefijo.data = false →
      dispatch cfg hP hC hQ hA msg = []) ∧
    ((cfg.grupoId = "" ∨ msg.remitente = cfg.grupoId) →
      empiezaCon (trimStr msg.body).data cfg.prefijo.data = true →
      (dispatch cfg hP hC hQ hA msg).length = 1) ∧
    (∀ e : Unit,
      (cfg.grupoId = "" ∨ msg.remitente = cfg.grupoId) →
      empiezaCon (trimStr msg.body).data cfg.prefijo.data = true →
      comandoDe msg ∈ ["pago", "cliente", "consulta", "ayuda", "help"] →
      dispatch cfg (fun _ => .error e) (fun _ => .error e)
        (fun _ => .error e) (fun _ => .error e) msg = [respuestaErrorInterno]) := by
  have hscope : ∀ (h : cfg.grupoId = "" ∨ msg.remitente = cfg.grupoId),
      ¬(cfg.grupoId ≠ "" ∧ msg.remitente ≠ cfg.grupoId) := by
    rintro (h | h) ⟨h1, h2⟩ <;> exact absurd h (by assumption)
  refine ⟨fun hg hm => ?_, fun hs hpre => ?_, fun hs hpre => ?_, fun e hs hpre hcmd => ?_⟩
  · simp [dispatch, hg, hm]
  · simp [dispatch, hscope hs, hpre]
  · simp only [dispatch]
    rw [if_neg (hscope hs), if_neg (by simp [hpre])]
    split <;> rfl
  · simp only [List.mem_cons, List.not_mem_nil, or_false] at hcmd
    simp only [dispatch]
    rw [if_neg (hscope hs), if_neg (by simp [hpre])]
    simp only [comandoDe] at hcmd
    rcases hcmd with h | h | h | h | h <;> rw [h] <;> simp

/-- C8 witness: in-scope command with a throwing handler yields the
single error reply; an out-of-scope message and a non-command message
yield no reply. -/
theorem dispatcher_frontera_witness :
    dispatch ⟨"g@g.us", "!"⟩ (fun _ => .error ()) (fun _ => .error ())
      (fun _ => .error ()) (fun _ => .error ()) ⟨"g@g.us", "!pago Juan 200"⟩
      = [respuestaErrorInterno] ∧
    dispatch ⟨"g@g.us", "!"⟩ (fun _ => .error ()) (fun _ => .error ())
      (fun _ => .error ()) (fun _ => .error ()) ⟨"otro@g.us", "!pago Juan 200"⟩
      = [] ∧
    dispatch ⟨"g@g.us", "!"⟩ (fun _ => .error ()) (fun _ => .error ())
      (fun _ => .error ()) (fun _ => .error ()) ⟨"g@g.us", "hola"⟩
      = [] :=
  ⟨(dispatcher_frontera ⟨"g@g.us", "!"⟩ (fun _ => .error ()) (fun _ => .error ())
      (fun _ => .error ()) (fun _ => .error ()) ⟨"g@g.us", "!pago Juan 200"⟩).2.2.2
      () (Or.inr rfl) (by decide) (by decide),
   (dispatcher_frontera ⟨"g@g.us", "!"⟩ (fun _ => .error ()) (fun _ => .error ())
      (fun _ => .error ()) (fun _ => .error ()) ⟨"otro@g.us", "!pago Juan 200"⟩).1
      (by decide) (by decide),
   (dispatcher_frontera ⟨"g@g.us", "!"⟩ (fun _ => .error ()) (fun _ => .error ())
      (fun _ => .error ()) (fun _ => .error ()) ⟨"g@g.us", "hola"⟩).2.1
      (Or.inr rfl) (by decide)⟩

/-! ## Payment-scan lemmas (claim C4) -/

/-- The map `jsToLower` fixes every character below `'A'` (whitespace, signs,
dot, digits). -/
lemma jsToLower_lt_A (c : Char) (h : c < 'A') : jsToLower c = c := by
  unfold jsToLower
  split_ifs with h1 h2 h3 h4 h5 h6 h7 h8
  · exact absurd h1.1 (not_le.mpr h)
  all_goals first | rfl | (subst_vars; exact absurd h (by decide))

/-- Digits sit below `'A'`. -/
lemma esDigito_lt_A {c : Char} (h : esDigito c = true) : c < 'A' := by
  simp only [esDigito, Bool.and_eq_true, decide_eq_true_eq] at h
  exact lt_of_le_of_lt h.2 (by decide)

/-- The model of `parseFloat` fails on a list whose head is not whitespace, a sign,
a digit or a dot. -/
lemma jsParseFloat_cabeza_no (c : Char) (t : List Char)
    (hws : esEspacio c = false) (hp : c ≠ '+') (hm : c ≠ '-')
    (hd : esDigito c = false) (hdot : c ≠ '.') :
    jsParseFloat (c :: t) = none := by
  unfold jsParseFloat
  rw [List.dropWhile_cons]
  simp only [hws, Bool.false_eq_true, if_false, if_neg hp, if_neg hm]
  unfold parseMag
  rw [List.takeWhile_cons, List.dropWhile_cons]
  simp only [hd, Bool.false_eq_true, if_false, if_neg hdot, List.isEmpty_nil,
    if_true]

/-- The amount test fails on any token whose first character lower-cases
to `r`, `e`, `t` or `d` (covers `ref:` tokens and payment-method
names). -/
lemma montoValido_cabeza_letra (tok : String) (c : Char) (r : List Char)
    (htd : tok.data = c :: r)
    (hx : jsToLower c = 'r' ∨ jsToLower c = 'e' ∨ jsToLower c = 't' ∨
      jsToLower c = 'd') :
    montoValido tok = none := by
  have hQ : c ≠ 'Q' := by rintro rfl; revert hx; decide
  have hq : c ≠ 'q' := by rintro rfl; revert hx; decide
  have hrem : removeQq tok.data = c :: removeQq r := by
    simp [removeQq, removeFirst, htd, hQ, hq]
  have hws : esEspacio c = false := by
    cases hsp : esEspacio c
    · rfl
    · exfalso
      simp only [esEspacio, Bool.or_eq_true, decide_eq_true_eq] at hsp
      have hsp4 : c = ' ' ∨ c = '\t' ∨ c = '\n' ∨ c = '\r' := by tauto
      rcases hsp4 with h | h | h | h <;> subst h <;> revert hx <;> decide
  have hp : c ≠ '+' := by rintro rfl; revert hx; decide
  have hm : c ≠ '-' := by rintro rfl; revert hx; decide
  have hdot : c ≠ '.' := by rintro rfl; revert hx; decide
  have hd : esDigito c = false := by
    cases hdg : esDigito c
    · rfl
    · exfalso
      rw [jsToLower_lt_A c (esDigito_lt_A hdg)] at hx
      rcases hx with h | h | h | h <;> subst h <;> revert hdg <;> decide
  have hpf := jsParseFloat_cabeza_no c (removeQq r) hws hp hm hd hdot
  simp [montoValido, hrem, hpf]

/-- A `ref:` token never passes the amount test. -/
lemma montoValido_isRef {tok : String} (h : isRefTok tok = true) :
    montoValido tok = none := by
  unfold isRefTok at h
  rcases htd : tok.data with _ | ⟨c0, l⟩
  · rw [htd] at h; simp at h
  · rw [htd] at h
    rcases l with _ | ⟨c1, l⟩
    · simp at h
    rcases l with _ | ⟨c2, l⟩
    · simp at h
    rcases l with _ | ⟨c3, l⟩
    · simp at h
    simp only [Bool.and_eq_true, decide_eq_true_eq] at h
    exact montoValido_cabeza_letra tok c0 _ htd (Or.inl h.1.1.1)

/-- A payment-method token never passes the amount test. -/
lemma montoValido_esMetodo {tok : String} (h : esMetodo tok = true) :
    montoValido tok = none := by
  have hx : jsToLowerStr tok = "efectivo" ∨ jsToLowerStr tok = "transferencia" ∨
      jsToLowerStr tok = "deposito" ∨ jsToLowerStr tok = "tarjeta" := by
    unfold esMetodo at h
    have hmem := List.elem_iff.mp h
    simpa using hmem
  rcases htd : tok.data with _ | ⟨c0, r⟩
  · exfalso
    rcases hx with h' | h' | h' | h' <;>
      · have hdata : tok.data.map jsToLower = _ := congrArg String.data h'
        rw [htd] at hdata
        exact absurd hdata (by decide)
  · have hc0 : jsToLower c0 = 'e' ∨ jsToLower c0 = 't' ∨ jsToLower c0 = 'd' := by
      rcases hx with h' | h' | h' | h'
      · have hdata : tok.data.map jsToLower = "efectivo".data :=
          congrArg String.data h'
        rw [htd, List.map_cons,
          show ("efectivo" : String).data = 'e' :: "fectivo".data from rfl] at hdata
        injection hdata with h1 h2
        exact Or.inl h1
      · have hdata : tok.data.map jsToLower = "transferencia".data :=
          congrArg String.data h'
        rw [htd, List.map_cons,
          show ("transferencia" : String).data = 't' :: "ransferencia".data from
            rfl] at hdata
        injection hdata with h1 h2
        exact Or.inr (Or.inl h1)
      · have hdata : tok.data.map jsToLower = "deposito".data :=
          congrArg String.data h'
        rw [htd, List.map_cons,
          show ("deposito" : String).data = 'd' :: "eposito".data from rfl] at hdata
        injection hdata with h1 h2
        exact Or.inr (Or.inr h1)
      · have hdata : tok.data.map jsToLower = "tarjeta".data :=
          congrArg String.data h'
        rw [htd, List.map_cons,
          show ("tarjeta" : String).data = 't' :: "arjeta".data from rfl] at hdata
        injection hdata with h1 h2
        exact Or.inr (Or.inl h1)
    exact montoValido_cabeza_letra tok c0 _ htd (Or.inr hc0)

/-- Characterization of a successful backward scan from index `i`: the
amount comes from an index `j ∈ [1, i]`, every index strictly between
`j` and `i` fails the amount test, and the returned reference/method
either are the accumulators passed in or come from a `ref:` /
method token at an index strictly right of `j`. -/
lemma scanPago_spec (args : List String) :
    ∀ (i : Nat) (met ref : String) (m : ℚ) (j : Nat) (metF refF : String),
      scanPago args i met ref = (some (m, j), metF, refF) →
      1 ≤ j ∧ j ≤ i ∧
      montoValido (args.getD j "") = some m ∧
      (∀ k, j < k → k ≤ i → montoValido (args.getD k "") = none) ∧
      (refF = ref ∨ ∃ k, j < k ∧ k ≤ i ∧ isRefTok (args.getD k "") = true ∧
        refF = dropStr (args.getD k "") 4) ∧
      (metF = met ∨ ∃ k, j < k ∧ k ≤ i ∧ esMetodo (args.getD k "") = true ∧
        metF = jsToLowerStr (args.getD k "")) := by
  intro i
  induction i with
  | zero =>
    intro met ref m j metF refF h
    simp [scanPago] at h
  | succ i ih =>
    intro met ref m j metF refF h
    simp only [scanPago] at h
    by_cases h1 : isRefTok (args.getD (i + 1) "") = true
    · rw [if_pos h1] at h
      obtain ⟨hj1, hji, hm, hnone, href, hmet⟩ :=
        ih met (dropStr (args.getD (i + 1) "") 4) m j metF refF h
      refine ⟨hj1, le_trans hji (Nat.le_succ i), hm, ?_, ?_, ?_⟩
      · intro k hk1 hk2
        rcases Nat.eq_or_lt_of_le hk2 with rfl | hlt
        · exact montoValido_isRef h1
        · exact hnone k hk1 (Nat.lt_succ_iff.mp hlt)
      · rcases href with rfl | ⟨k, hk1, hk2, hkr, hkv⟩
        · exact Or.inr ⟨i + 1, Nat.lt_succ_of_le hji, le_refl _, h1, rfl⟩
        · exact Or.inr ⟨k, hk1, le_trans hk2 (Nat.le_succ i), hkr, hkv⟩
      · rcases hmet with rfl | ⟨k, hk1, hk2, hkm, hkv⟩
        · exact Or.inl rfl
        · exact Or.inr ⟨k, hk1, le_trans hk2 (Nat.le_succ i), hkm, hkv⟩
    · rw [if_neg h1] at h
      by_cases h2 : esMetodo (args.getD (i + 1) "") = true
      · rw [if_pos h2] at h
        obtain ⟨hj1, hji, hm, hnone, href, hmet⟩ :=
          ih (jsToLowerStr (args.getD (i + 1) "")) ref m j metF refF h
        refine ⟨hj1, le_trans hji (Nat.le_succ i), hm, ?_, ?_, ?_⟩
        · intro k hk1 hk2
          rcases Nat.eq_or_lt_of_le hk2 with rfl | hlt
          · exact montoValido_esMetodo h2
          · exact hnone k hk1 (Nat.lt_succ_iff.mp hlt)
        · rcases href with rfl | ⟨k, hk1, hk2, hkr, hkv⟩
          · exact Or.inl rfl
          · exact Or.inr ⟨k, hk1, le_trans hk2 (Nat.le_succ i), hkr, hkv⟩
        · rcases hmet with rfl | ⟨k, hk1, hk2, hkm, hkv⟩
          · exact Or.inr ⟨i + 1, Nat.lt_succ_of_le hji, le_refl _, h2, rfl⟩
          · exact Or.inr ⟨k, hk1, le_trans hk2 (Nat.le_succ i), hkm, hkv⟩
      · rw [if_neg h2] at h
        cases hmv : montoValido (args.getD (i + 1) "") with
        | some n =>
          rw [hmv] at h
          simp only [Prod.mk.injEq, Option.some.injEq] at h
          obtain ⟨⟨hn, hj⟩, hmet, href⟩ := h
          subst hn; subst hj; subst hmet; subst href
          refine ⟨Nat.succ_le_succ (Nat.zero_le i), le_refl _, hmv, ?_,
            Or.inl rfl, Or.inl rfl⟩
          intro k hk1 hk2
          exact absurd (lt_of_lt_of_le hk1 hk2) (lt_irrefl _)
        | none =>
          rw [hmv] at h
          obtain ⟨hj1, hji, hm, hnone, href, hmet⟩ := ih met ref m j metF refF h
          refine ⟨hj1, le_trans hji (Nat.le_succ i), hm, ?_, ?_, ?_⟩
          · intro k hk1 hk2
            rcases Nat.eq_or_lt_of_le hk2 with rfl | hlt
            · exact hmv
            · exact hnone k hk1 (Nat.lt_succ_iff.mp hlt)
          · rcases href with rfl | ⟨k, hk1, hk2, hkr, hkv⟩
            · exact Or.inl rfl
            · exact Or.inr ⟨k, hk1, le_trans hk2 (Nat.le_succ i), hkr, hkv⟩
          · rcases hmet with rfl | ⟨k, hk1, hk2, hkm, hkv⟩
            · exact Or.inl rfl
            · exact Or.inr ⟨k, hk1, le_trans hk2 (Nat.le_succ i), hkm, hkv⟩

/-- C4.  Stop-on-amount: whenever `procesarPago` accepts a token list,
there is an amount index `j ≥ 1` (index 0 is never consumed as amount)
holding the first token, scanning from the end, that passes the amount
test; every token strictly right of `j` fails the amount test; the
identifier is the space-join of all tokens strictly left of `j` (so
`ref:`/method tokens left of the amount end up in the identifier); and
the extracted reference/method can only come from tokens strictly right
of `j`. -/
theorem pago_scan_se_detiene_en_monto
    (args : List String) (r : PagoIntent)
    (h : procesarPagoParse args = some r) :
    ∃ j, 1 ≤ j ∧ j < args.length ∧
      montoValido (args.getD j "") = some r.monto ∧
      (∀ k, j < k → k < args.length → montoValido (args.getD k "") = none) ∧
      r.identificador = joinWith " " (args.take j) ∧
      (r.referencia = "" ∨ ∃ k, j < k ∧ k < args.length ∧
        isRefTok (args.getD k "") = true ∧
        r.referencia = dropStr (args.getD k "") 4) ∧
      (r.metodoPago = "efectivo" ∨ ∃ k, j < k ∧ k < args.length ∧
        esMetodo (args.getD k "") = true ∧
        r.metodoPago = jsToLowerStr (args.getD k "")) := by
  unfold procesarPagoParse at h
  split at h
  · exact absurd h (by simp)
  · rename_i hlen
    rcases hscan : scanPago args (args.length - 1) "efectivo" ""
      with ⟨mopt, met, ref⟩
    rw [hscan] at h
    rcases mopt with _ | ⟨m, idx⟩
    · simp at h
    · simp only [] at h
      split at h
      · exact absurd h (by simp)
      · split at h
        · exact absurd h (by simp)
        · rw [Option.some.injEq] at h
          subst h
          obtain ⟨hj1, hji, hm, hnone, href, hmet⟩ :=
            scanPago_spec args (args.length - 1) "efectivo" "" m idx met ref hscan
          have hlen2 : 2 ≤ args.length := by omega
          refine ⟨idx, hj1, by omega, hm, ?_, rfl, ?_, ?_⟩
          · intro k hk1 hk2
            exact hnone k hk1 (by omega)
          · rcases href with rfl | ⟨k, hk1, hk2, hkr, hkv⟩
            · exact Or.inl rfl
            · exact Or.inr ⟨k, hk1, by omega, hkr, hkv⟩
          · rcases hmet with rfl | ⟨k, hk1, hk2, hkm, hkv⟩
            · exact Or.inl rfl
            · exact Or.inr ⟨k, hk1, by omega, hkm, hkv⟩

/-- C4 witness: in `Juan ref:9 transferencia 200 extra`, the amount is
found at index 3 scanning backward; the `ref:` and method tokens to its
left are not extracted and join the identifier instead. -/
theorem pago_scan_se_detiene_en_monto_witness :
    ∃ j, 1 ≤ j ∧ j < 5 ∧
      montoValido ((["Juan", "ref:9", "transferencia", "200", "extra"]).getD j "")
        = some ((200 : ℚ)) ∧
      (∀ k, j < k → k < 5 →
        montoValido ((["Juan", "ref:9", "transferencia", "200", "extra"]).getD k "")
          = none) ∧
      "Juan ref:9 transferencia"
        = joinWith " " ((["Juan", "ref:9", "transferencia", "200", "extra"]).take j) ∧
      (("" : String) = "" ∨ ∃ k, j < k ∧ k < 5 ∧
        isRefTok ((["Juan", "ref:9", "transferencia", "200", "extra"]).getD k "")
          = true ∧
        ("" : String)
          = dropStr ((["Juan", "ref:9", "transferencia", "200", "extra"]).getD k "") 4) ∧
      (("efectivo" : String) = "efectivo" ∨ ∃ k, j < k ∧ k < 5 ∧
        esMetodo ((["Juan", "ref:9", "transferencia", "200", "extra"]).getD k "")
          = true ∧
        ("efectivo" : String)
          = jsToLowerStr ((["Juan", "ref:9", "transferencia", "200", "extra"]).getD k "")) := by
  have h := pago_scan_se_detiene_en_monto
    ["Juan", "ref:9", "transferencia", "200", "extra"]
    ⟨"Juan ref:9 transferencia", 200, "efectivo", ""⟩ (by decide)
  simpa using h

end Cuzo
